import Mathlib

/-!
Verification of the NGA open-data retrieval pipeline.

This file gives a shallow embedding, in Lean, of the retrieval and
ingestion logic of the repository:

* `query_artworks_enhanced`, `get_related_artworks` (the Streamlit app,
  `nga-curator/app.py`): the BigQuery SQL is modelled by explicit list
  joins, filters, de-duplication, sorting and truncation over an
  in-memory `Catalog`; SQL `LIKE` is modelled by a character-level
  pattern matcher with the `%`, `_` and backslash metacharacters; SQL
  `NULL` is modelled by `Option`.
* `sanitize_column_names`, `filter_published_images` and the `main`
  loading loop (`scripts/load_to_bigquery.py`): modelled as pure
  functions over lists, with the fallible external steps (CSV read,
  objectid fetch, load job) passed in as explicit outcomes.

Python string operations are restricted to their ASCII behaviour
(`Char.toLower`, `Char.isAlphanum`, `Char.isDigit`), which agrees with
Python on every input used in this development.
-/

namespace NGA

/-! ## Generic string helpers -/

/-- ASCII model of the Python `str.lower()` method: lower-case every
character of the string. -/
def strLower (s : String) : String :=
  String.mk (s.data.map Char.toLower)

/-- `hasPre p s` is true when the character list `p` is a prefix of `s`. -/
def hasPre : List Char → List Char → Bool
  | [], _ => true
  | _ :: _, [] => false
  | c :: p, d :: s => c == d && hasPre p s

/-- `hasSub p s` is true when the character list `p` occurs contiguously
inside `s` (substring containment). -/
def hasSub : List Char → List Char → Bool
  | p, [] => p.isEmpty
  | p, d :: s => hasPre p (d :: s) || hasSub p s

/-- `likeAny f s` is true when `f` accepts some suffix of `s` (including
`s` itself and the empty suffix): the semantics of a leading `%` in a
`LIKE` pattern. -/
def likeAny (f : List Char → Bool) : List Char → Bool
  | [] => f []
  | c :: s => f (c :: s) || likeAny f s

/-- BigQuery `LIKE` pattern matching on character lists: `%` matches any
run of characters, `_` matches exactly one character, a backslash escapes
the following character, and every other character matches itself. -/
def likeMatch : List Char → List Char → Bool
  | [], s => s.isEmpty
  | c :: p, s =>
    if c == '%' then likeAny (likeMatch p) s
    else if c == '\\' then
      match p, s with
      | c' :: p', d :: s' => c' == d && likeMatch p' s'
      | _, _ => false
    else if c == '_' then
      match s with
      | [] => false
      | _ :: s' => likeMatch p s'
    else
      match s with
      | [] => false
      | d :: s' => c == d && likeMatch p s'

/-- `LIKE` comparison of a nullable column against the pattern
`'%' ++ kw ++ '%'` after lower-casing both sides, exactly as the query
builder does with `LOWER(col) LIKE ?` and the parameter
`f"%{keyword.lower()}%"`.  A `NULL` column never matches. -/
def fieldLike (field : Option String) (kw : String) : Bool :=
  match field with
  | none => false
  | some s => likeMatch ('%' :: (strLower kw).data ++ ['%']) (strLower s).data

/-! ## Generic list helpers -/

/-- Worker for `dedupFirst`: drop every element already in `seen` or
seen earlier in the list. -/
def dedupGo {α : Type} [DecidableEq α] (seen : List α) : List α → List α
  | [] => []
  | a :: as => if a ∈ seen then dedupGo seen as else a :: dedupGo (a :: seen) as

/-- Keep the first occurrence of every element, dropping later
duplicates: the model of SQL `SELECT DISTINCT`. -/
def dedupFirst {α : Type} [DecidableEq α] (l : List α) : List α :=
  dedupGo [] l

/-- SQL `LEFT JOIN` helper: a non-empty list of matches joins each match,
an empty list of matches joins a single all-`NULL` row. -/
def leftJoin {β : Type} (ms : List β) : List (Option β) :=
  match ms with
  | [] => [none]
  | ms => ms.map some

/-! ## Catalog data model

One structure per BigQuery table touched by the app, with one field per
column that the queries read.  Nullable columns are `Option`. -/

structure ObjectRow where
  objectid : Nat
  accessioned : Option Int
  title : Option String
  displaydate : Option String
  beginyear : Option Int
  endyear : Option Int
  medium : Option String
  dimensions : Option String
  classification : Option String
  attribution : Option String
  creditline : Option String
  accessionnum : Option String
  locationid : Option Nat
deriving DecidableEq, Repr

structure TermRow where
  objectid : Nat
  term : Option String
deriving DecidableEq, Repr

structure ObjConstRow where
  objectid : Nat
  constituentid : Nat
  roletype : Option String
deriving DecidableEq, Repr

structure ConstituentRow where
  constituentid : Nat
  preferreddisplayname : Option String
  displaydate : Option String
  nationality : Option String
  beginyear : Option Int
  endyear : Option Int
deriving DecidableEq, Repr

structure ImageRow where
  objectid : Nat
  iiifurl : Option String
  viewtype : Option String
  width : Option Int
  height : Option Int
deriving DecidableEq, Repr

structure LocationRow where
  locationid : Nat
  description : Option String
  site : Option String
deriving DecidableEq, Repr

structure Catalog where
  objects : List ObjectRow
  objects_terms : List TermRow
  objects_constituents : List ObjConstRow
  constituents : List ConstituentRow
  published_images : List ImageRow
  locations : List LocationRow

/-! ## Retrieval engine: `query_artworks_enhanced`

Embedding of `query_artworks_enhanced(keywords, search_type, limit)` from
`nga-curator/app.py`.  The Python function first builds one WHERE clause
per keyword from `search_type`, then runs a fixed SQL query:

* CTE `artwork_base`: `objects` LEFT JOINed with `objects_terms`, with
  `objects_constituents`/`constituents` restricted to
  `roletype = artist`, with `published_images` restricted to
  `viewtype = primary`, and with `locations`; filtered by
  `accessioned = 1`, the OR of the keyword clauses, and
  `iiifurl IS NOT NULL`; projected through `SELECT DISTINCT` onto the
  display columns (which do not include the joined term).
* CTE `artwork_with_terms`: the base rows grouped by all of their
  columns, each extended with `STRING_AGG(DISTINCT term)` over an
  unfiltered re-join to `objects_terms`.
* Final `SELECT`: ordered by the artist-null flag then by
  `creation_start_year DESC` (BigQuery sorts `NULL` last in a
  descending order), truncated to `limit`.
-/

/-- Failure modes observable from `query_artworks_enhanced`.
`nameError` models the Python `NameError` raised when the loop body
reads the never-assigned local `where_clause`; `backendError` models a
query-execution failure reported by the warehouse (in particular for
the syntactically malformed SQL produced when no clause was built);
`invalidArgument` is the caller-side validation failure described by
the specification, which the code never raises. -/
inductive AppFailure where
  | nameError
  | invalidArgument
  | backendError
deriving DecidableEq, Repr

/-- The three recognized search scopes. -/
inductive ClauseKind where
  | comprehensive
  | termsOnly
  | titleOnly
deriving DecidableEq, Repr

/-- Which clause the `if search_type == ...` chain selects. -/
def scopeClauseKind (searchType : String) : Option ClauseKind :=
  if searchType == "comprehensive" then some ClauseKind.comprehensive
  else if searchType == "terms_only" then some ClauseKind.termsOnly
  else if searchType == "title_only" then some ClauseKind.titleOnly
  else none

/-- The spelling of each valid scope, inverse to `scopeClauseKind`. -/
def scopeOfKind : ClauseKind → String
  | ClauseKind.comprehensive => "comprehensive"
  | ClauseKind.termsOnly => "terms_only"
  | ClauseKind.titleOnly => "title_only"

/-- One iteration structure of the Python `for keyword in keywords` loop:
`prev` is the value the local `where_clause` retained from earlier
iterations.  If `search_type` is not one of the three recognized values,
the loop body never assigns `where_clause`, so the trailing
`where_clauses.append(where_clause)` raises `NameError` on the first
iteration (`prev = none`); on later iterations it would append the stale
clause text without binding a parameter, leaving a placeholder mismatch
that the warehouse rejects — that branch is unreachable here because the
scope is fixed for the whole loop. -/
def buildClausesGo (searchType : String) :
    List String → Option ClauseKind → List (ClauseKind × String) →
    Except AppFailure (List (ClauseKind × String))
  | [], _, acc => Except.ok acc.reverse
  | kw :: rest, prev, acc =>
    match scopeClauseKind searchType with
    | some k => buildClausesGo searchType rest (some k) ((k, kw) :: acc)
    | none =>
      match prev with
      | none => Except.error AppFailure.nameError
      | some _ => Except.error AppFailure.backendError

/-- The WHERE-clause construction loop of `query_artworks_enhanced`. -/
def buildClauses (keywords : List String) (searchType : String) :
    Except AppFailure (List (ClauseKind × String)) :=
  buildClausesGo searchType keywords none []

/-- One row of the five-way join underlying `artwork_base`, before the
WHERE filter and the projection. -/
structure JoinedRow where
  o : ObjectRow
  ot : Option TermRow
  c : Option ConstituentRow
  pi : Option ImageRow
  l : Option LocationRow
deriving DecidableEq, Repr

/-- One keyword clause evaluated on a joined row.  `comprehensive`
checks title, term, artist display name, medium and classification;
`terms_only` checks the term; `title_only` checks the title. -/
def matchClause (j : JoinedRow) : ClauseKind × String → Bool
  | (ClauseKind.comprehensive, kw) =>
    fieldLike j.o.title kw ||
    fieldLike (j.ot.bind TermRow.term) kw ||
    fieldLike (j.c.bind ConstituentRow.preferreddisplayname) kw ||
    fieldLike j.o.medium kw ||
    fieldLike j.o.classification kw
  | (ClauseKind.termsOnly, kw) => fieldLike (j.ot.bind TermRow.term) kw
  | (ClauseKind.titleOnly, kw) => fieldLike j.o.title kw

/-- The artist side of the join: `objects_constituents` restricted to
`roletype = artist` LEFT JOINed to the object, then `constituents`
LEFT JOINed on the constituent id (a `NULL` join row matches nothing). -/
def artistOptions (cat : Catalog) (o : ObjectRow) : List (Option ConstituentRow) :=
  (leftJoin (cat.objects_constituents.filter (fun oc =>
      oc.objectid == o.objectid && oc.roletype == some "artist"))).flatMap
    (fun oc? =>
      match oc? with
      | none => [none]
      | some ocr =>
        leftJoin (cat.constituents.filter (fun c =>
          c.constituentid == ocr.constituentid)))

/-- All rows of the five-way join of `artwork_base`, one per combination
of an object with one (possibly `NULL`) match from each joined table. -/
def joinedRows (cat : Catalog) : List JoinedRow :=
  cat.objects.flatMap (fun o =>
    (leftJoin (cat.objects_terms.filter (fun t => t.objectid == o.objectid))).flatMap
      (fun ot? =>
        (artistOptions cat o).flatMap (fun c? =>
          (leftJoin (cat.published_images.filter (fun p =>
              p.objectid == o.objectid && p.viewtype == some "primary"))).flatMap
            (fun pi? =>
              (leftJoin (cat.locations.filter (fun loc =>
                  match o.locationid with
                  | none => false
                  | some lid => loc.locationid == lid))).map
                (fun l? => JoinedRow.mk o ot? c? pi? l?)))))

/-- The WHERE condition of `artwork_base`: `accessioned = 1`, the OR of
the keyword clauses, and a non-`NULL` primary image URL. -/
def rowEligible (clauses : List (ClauseKind × String)) (j : JoinedRow) : Bool :=
  j.o.accessioned == some 1 &&
  clauses.any (matchClause j) &&
  (match j.pi with
   | none => false
   | some p => p.iiifurl.isSome)

/-- The columns `artwork_base` projects (the joined term column is not
among them, so `SELECT DISTINCT` collapses rows that differ only in
which term matched). -/
structure BaseRow where
  objectid : Nat
  title : Option String
  displaydate : Option String
  medium : Option String
  dimensions : Option String
  classification : Option String
  attribution : Option String
  creditline : Option String
  accessionnum : Option String
  artist_name : Option String
  artist_dates : Option String
  artist_nationality : Option String
  artist_birth_year : Option Int
  artist_death_year : Option Int
  iiifurl : Option String
  image_width : Option Int
  image_height : Option Int
  location_description : Option String
  building : Option String
  creation_start_year : Option Int
  creation_end_year : Option Int
deriving DecidableEq, Repr

/-- The SELECT projection of `artwork_base`. -/
def projectBase (j : JoinedRow) : BaseRow where
  objectid := j.o.objectid
  title := j.o.title
  displaydate := j.o.displaydate
  medium := j.o.medium
  dimensions := j.o.dimensions
  classification := j.o.classification
  attribution := j.o.attribution
  creditline := j.o.creditline
  accessionnum := j.o.accessionnum
  artist_name := j.c.bind ConstituentRow.preferreddisplayname
  artist_dates := j.c.bind ConstituentRow.displaydate
  artist_nationality := j.c.bind ConstituentRow.nationality
  artist_birth_year := j.c.bind ConstituentRow.beginyear
  artist_death_year := j.c.bind ConstituentRow.endyear
  iiifurl := j.pi.bind ImageRow.iiifurl
  image_width := j.pi.bind ImageRow.width
  image_height := j.pi.bind ImageRow.height
  location_description := j.l.bind LocationRow.description
  building := j.l.bind LocationRow.site
  creation_start_year := j.o.beginyear
  creation_end_year := j.o.endyear

/-- The `artwork_base` CTE: join, WHERE filter, projection, DISTINCT. -/
def baseRows (cat : Catalog) (clauses : List (ClauseKind × String)) : List BaseRow :=
  dedupFirst (((joinedRows cat).filter (rowEligible clauses)).map projectBase)

/-- `STRING_AGG(DISTINCT ot2.term)` with comma separator over the unfiltered re-join of
an object to `objects_terms`: `NULL` terms are skipped, duplicates are
removed, and aggregation over no rows yields `NULL`. -/
def aggTerms (cat : Catalog) (oid : Nat) : Option String :=
  match dedupFirst ((cat.objects_terms.filter
      (fun t => t.objectid == oid)).filterMap TermRow.term) with
  | [] => none
  | ts => some (String.intercalate ", " ts)

/-- A row of the `artwork_with_terms` CTE and of the final result set:
a base row extended with the aggregated term list. -/
structure ResultRow extends BaseRow where
  all_terms : Option String
deriving DecidableEq, Repr

/-- The `artwork_with_terms` CTE.  The base rows are already distinct
tuples and the GROUP BY lists every one of their columns, so each base
row forms its own group and is extended with its aggregate. -/
def withTerms (cat : Catalog) (rows : List BaseRow) : List ResultRow :=
  rows.map (fun b => ResultRow.mk b (aggTerms cat b.objectid))

/-- Sort key of `ORDER BY CASE WHEN artist_name IS NOT NULL THEN 0 ELSE 1 END`. -/
def artistRank (r : ResultRow) : Nat :=
  if r.artist_name.isSome then 0 else 1

/-- `creation_start_year DESC` with BigQuery `NULL` placement: in a
descending order, `NULL` sorts after every value. -/
def yearDescLE : Option Int → Option Int → Prop
  | _, none => True
  | none, some _ => False
  | some x, some y => y ≤ x

instance : DecidableRel yearDescLE := fun a b =>
  match a, b with
  | none, none => isTrue trivial
  | some _, none => isTrue trivial
  | none, some _ => isFalse (fun h => h)
  | some x, some y => inferInstanceAs (Decidable (y ≤ x))

/-- The two-key ORDER BY of the final SELECT. -/
def searchLE (a b : ResultRow) : Prop :=
  artistRank a < artistRank b ∨
    (artistRank a = artistRank b ∧
      yearDescLE a.creation_start_year b.creation_start_year)

instance : DecidableRel searchLE := fun a b => by
  unfold searchLE
  infer_instance

instance : IsTotal ResultRow searchLE where
  total a b := by
    rcases Nat.lt_trichotomy (artistRank a) (artistRank b) with h | h | h
    · exact Or.inl (Or.inl h)
    · have hy : yearDescLE a.creation_start_year b.creation_start_year ∨
          yearDescLE b.creation_start_year a.creation_start_year := by
        rcases a.creation_start_year with _ | x <;> rcases b.creation_start_year with _ | y <;>
          first
            | exact Or.inl trivial
            | exact Or.inr trivial
            | exact Int.le_total y x
      rcases hy with hy | hy
      · exact Or.inl (Or.inr ⟨h, hy⟩)
      · exact Or.inr (Or.inr ⟨h.symm, hy⟩)
    · exact Or.inr (Or.inl h)

instance : IsTrans ResultRow searchLE where
  trans a b c hab hbc := by
    have hyt : ∀ x y z : Option Int,
        yearDescLE x y → yearDescLE y z → yearDescLE x z := by
      intro x y z hxy hyz
      rcases x with _ | x <;> rcases y with _ | y <;> rcases z with _ | z <;>
        first
          | exact trivial
          | exact absurd hxy (fun h => h)
          | exact absurd hyz (fun h => h)
          | exact Int.le_trans hyz hxy
    rcases hab with hab | ⟨hab, hya⟩ <;> rcases hbc with hbc | ⟨hbc, hyb⟩
    · exact Or.inl (Nat.lt_trans hab hbc)
    · exact Or.inl (hbc ▸ hab)
    · exact Or.inl (hab ▸ hbc)
    · exact Or.inr ⟨hab.trans hbc, hyt _ _ _ hya hyb⟩

/-- The pure core of `query_artworks_enhanced` once the clause list is
built: base CTE, term aggregation, ORDER BY, LIMIT. -/
def runSearch (cat : Catalog) (clauses : List (ClauseKind × String))
    (limit : Nat) : List ResultRow :=
  (List.insertionSort searchLE (withTerms cat (baseRows cat clauses))).take limit

/-- Embedding of `query_artworks_enhanced`.  The function performs no
argument validation of its own: the clause-building loop can fail with
`nameError`, and with an empty clause list the rendered SQL contains the
empty parenthesized group `AND ()`, which the warehouse rejects when the
query is executed (`backendError`).  Otherwise the query result is
returned. -/
def query_artworks_enhanced (cat : Catalog) (keywords : List String)
    (searchType : String) (limit : Nat) : Except AppFailure (List ResultRow) :=
  match buildClauses keywords searchType with
  | Except.error e => Except.error e
  | Except.ok clauses =>
    if clauses.isEmpty then Except.error AppFailure.backendError
    else Except.ok (runSearch cat clauses limit)

/-! ## Detail fetcher: `get_related_artworks`

Embedding of `get_related_artworks(object_id)` from `nga-curator/app.py`:

* CTE `current_artwork`: inner joins of `objects`, `objects_constituents`
  and `constituents`, filtered by `o.objectid = ?` and
  `oc.roletype = artist`, truncated by `LIMIT 1` to the first row.
* Main query: every object linked to that artist id with
  `roletype = artist`, excluding the seed object, LEFT JOINed to its
  primary image, required to have a non-`NULL` image URL, projected with
  `SELECT DISTINCT`, ordered by `displaydate` ascending (BigQuery sorts
  `NULL` first in an ascending order) and truncated to 5 rows.
-/

/-- A row of the related-artworks result. -/
structure RelRow where
  objectid : Nat
  title : Option String
  displaydate : Option String
  iiifurl : Option String
  relation_type : String
deriving DecidableEq, Repr

/-- The `current_artwork` CTE: the first `(objectid, artist_id)` pair of
the seed object, if the seed has any artist row. -/
def currentArtwork (cat : Catalog) (object_id : Nat) : Option (Nat × Nat) :=
  ((cat.objects.flatMap (fun o =>
      (cat.objects_constituents.filter (fun oc =>
          oc.objectid == o.objectid)).flatMap (fun oc =>
        (cat.constituents.filter (fun c =>
            c.constituentid == oc.constituentid)).map (fun c => (o, oc, c))))).filter
    (fun x => x.1.objectid == object_id && x.2.1.roletype == some "artist")).head?.map
    (fun x => (x.1.objectid, x.2.2.constituentid))

/-- The body of the main related-artworks query before DISTINCT, ORDER
BY and LIMIT, given the `current_artwork` row `ca`. -/
def relatedCandidates (cat : Catalog) (ca : Nat × Nat) : List RelRow :=
  (((cat.objects_constituents.filter (fun oc =>
        ca.2 == oc.constituentid)).flatMap (fun oc =>
      (cat.objects.filter (fun o => o.objectid == oc.objectid)).flatMap (fun o =>
        (leftJoin (cat.published_images.filter (fun p =>
            p.objectid == o.objectid && p.viewtype == some "primary"))).map
          (fun p? => (oc, o, p?))))).filter
    (fun x =>
      x.2.1.objectid != ca.1 && x.1.roletype == some "artist" &&
        (match x.2.2 with
         | none => false
         | some p => p.iiifurl.isSome))).map
    (fun x => RelRow.mk x.2.1.objectid x.2.1.title x.2.1.displaydate
      (x.2.2.bind ImageRow.iiifurl) "Same Artist")

/-- Ascending order on a nullable string column with BigQuery `NULL`
placement: in an ascending order, `NULL` sorts before every value. -/
def optStrLE : Option String → Option String → Prop
  | none, _ => True
  | some _, none => False
  | some s, some t => s ≤ t

instance : DecidableRel optStrLE := fun a b =>
  match a, b with
  | none, _ => isTrue trivial
  | some _, none => isFalse (fun h => h)
  | some s, some t => inferInstanceAs (Decidable (s ≤ t))

/-- `ORDER BY o.displaydate` ascending. -/
def dispLE (a b : RelRow) : Prop :=
  optStrLE a.displaydate b.displaydate

instance : DecidableRel dispLE := fun a b =>
  inferInstanceAs (Decidable (optStrLE a.displaydate b.displaydate))

instance : IsTotal RelRow dispLE where
  total a b := by
    have hyp : ∀ u v : Option String, optStrLE u v ∨ optStrLE v u := by
      intro u v
      rcases u with _ | x
      · exact Or.inl trivial
      · rcases v with _ | y
        · exact Or.inr trivial
        · exact le_total x y
    exact hyp a.displaydate b.displaydate

instance : IsTrans RelRow dispLE where
  trans a b c hab hbc := by
    have hyp : ∀ u v w : Option String, optStrLE u v → optStrLE v w → optStrLE u w := by
      intro u v w huv hvw
      rcases u with _ | x
      · exact trivial
      · rcases v with _ | y
        · exact absurd huv (fun h => h)
        · rcases w with _ | z
          · exact absurd hvw (fun h => h)
          · exact le_trans (show x ≤ y from huv) (show y ≤ z from hvw)
    exact hyp a.displaydate b.displaydate c.displaydate hab hbc

/-- Embedding of `get_related_artworks`: if the seed object has no
artist row the CTE is empty and every join against it is empty;
otherwise DISTINCT candidates ordered by display date, first 5. -/
def get_related_artworks (cat : Catalog) (object_id : Nat) : List RelRow :=
  match currentArtwork cat object_id with
  | none => []
  | some ca =>
    (List.insertionSort dispLE (dedupFirst (relatedCandidates cat ca))).take 5

/-! ## Ingestion loader (`scripts/load_to_bigquery.py`) -/

/-- The final step of column sanitization: `if sanitized and
sanitized[0].isdigit()` prepends the `col_` prefix. -/
def digitRule (s : List Char) : String :=
  match s with
  | [] => String.mk []
  | c :: _ =>
    if c.isDigit then String.mk ("col_".data ++ s) else String.mk s

/-- Per-column core of `sanitize_column_names`, following the Python
statements in order: lower-case, `replace(' ', '_')`, `replace('-', '_')`,
remove `(` and `)`, drop every remaining character that is neither
alphanumeric nor an underscore, and prepend `col_` when the result is
non-empty and starts with a digit. -/
def sanitize_column_name (col : String) : String :=
  let lowered := col.data.map Char.toLower
  let underscored := lowered.map (fun c => if c == ' ' || c == '-' then '_' else c)
  let deparened := underscored.filter (fun c => !(c == '(') && !(c == ')'))
  let cleaned := deparened.filter (fun c => c.isAlphanum || c == '_')
  digitRule cleaned

/-- The sanitization described by the specification sentence, for
comparison with the code: lower-case the name, replace every
non-alphanumeric character by an underscore, and prepend `col_` exactly
when the sanitized name would start with a digit. -/
def specSanitizeColumn (col : String) : String :=
  digitRule ((col.data.map Char.toLower).map
    (fun c => if c.isAlphanum then c else '_'))

/-- The per-character action of the sanitization the code performs:
lower-case the character; a space or hyphen becomes an underscore; an
alphanumeric character or underscore is kept; everything else is
removed. -/
def amendedSanitizeChar (c0 : Char) : Option Char :=
  let c := c0.toLower
  if c == ' ' || c == '-' then some '_'
  else if c.isAlphanum || c == '_' then some c
  else none

/-- The sanitization the code actually performs, phrased as one pass
over the characters followed by the digit-prefix rule. -/
def amendedSanitizeColumn (col : String) : String :=
  digitRule (col.data.filterMap amendedSanitizeChar)

/-- One row of the published-images CSV after column sanitization and
the `depictstmsobjectid -> objectid` rename. -/
structure PubImgRow where
  objectid : Nat
  iiifurl : Option String
deriving DecidableEq, Repr

/-- Embedding of `filter_published_images(df)`.  The function first
fetches the `objectid` column of the already-loaded `objects` table;
`fetched` is the outcome of that query.  If the fetch raises, or yields
an empty id set, the input frame is returned unchanged; otherwise the
frame is restricted to rows whose `objectid` is in the fetched set. -/
def filter_published_images (df : List PubImgRow)
    (fetched : Except Unit (List Nat)) : List PubImgRow :=
  match fetched with
  | Except.error _ => df
  | Except.ok ids =>
    if ids.isEmpty then df
    else df.filter (fun r => ids.contains r.objectid)

/-- The `TABLE_CONFIGS` dictionary, reduced to the fields the main loop
reads: insertion-ordered table names with their dependency lists. -/
def TABLE_CONFIGS : List (String × List String) :=
  [("objects", []),
   ("constituents", []),
   ("objects_constituents", ["objects", "constituents"]),
   ("objects_terms", ["objects"]),
   ("published_images", ["objects"]),
   ("alternative_identifiers", []),
   ("constituents_altnames", ["constituents"]),
   ("constituents_text_entries", ["constituents"]),
   ("locations", []),
   ("media_items", []),
   ("media_relationships", ["media_items"]),
   ("object_associations", ["objects"]),
   ("objects_dimensions", ["objects"]),
   ("objects_historical_data", ["objects"]),
   ("objects_text_entries", ["objects"]),
   ("preferred_locations", []),
   ("preferred_locations_tms_locations", ["preferred_locations", "locations"])]

/-- `get_dependency_order()`: dependency-free tables in dictionary
order, then the remaining tables stably sorted by dependency count
(Python `list.sort` is stable, as is insertion sort with a non-strict
comparison). -/
def get_dependency_order : List String :=
  let no_deps := (TABLE_CONFIGS.filter (fun tc => tc.2.isEmpty)).map Prod.fst
  let with_deps := TABLE_CONFIGS.filter (fun tc => !tc.2.isEmpty)
  no_deps ++
    (List.insertionSort (fun a b => a.2.length ≤ b.2.length) with_deps).map Prod.fst

/-- Outcomes of the external effects the main loop performs, passed in
explicitly: the standard per-table load result, the published-images
CSV read, the committed-objectid fetch, and the special-path load job. -/
structure LoadEnv where
  stdLoadOk : String → Bool
  imagesCsv : Except Unit (List PubImgRow)
  fetchIds : Except Unit (List Nat)
  specialLoadOk : Bool

/-- The state the main loop threads: the success and failure lists, the
rows last written to the `published_images` table (if any write
happened), and whether the referential-integrity filter ran. -/
structure LoadState where
  successful_loads : List String
  failed_loads : List String
  imagesWritten : Option (List PubImgRow)
  filterRan : Bool

/-- One iteration of the `for table_id in loading_order` loop of
`main()`.  The special filtered path is taken exactly for
`published_images` when `objects` is already recorded as successfully
loaded; every other case goes through `load_csv_to_bigquery`, which
performs no filtering. -/
def processTable (env : LoadEnv) (st : LoadState) (t : String) : LoadState :=
  if t == "published_images" && st.successful_loads.contains "objects" then
    match env.imagesCsv with
    | Except.error _ => { st with failed_loads := st.failed_loads ++ [t] }
    | Except.ok rows =>
      let df := filter_published_images rows env.fetchIds
      if env.specialLoadOk then
        { st with
          successful_loads := st.successful_loads ++ [t]
          imagesWritten := some df
          filterRan := true }
      else
        { st with failed_loads := st.failed_loads ++ [t], filterRan := true }
  else if t == "published_images" then
    match env.imagesCsv with
    | Except.error _ => { st with failed_loads := st.failed_loads ++ [t] }
    | Except.ok rows =>
      if env.stdLoadOk t then
        { st with
          successful_loads := st.successful_loads ++ [t]
          imagesWritten := some rows }
      else { st with failed_loads := st.failed_loads ++ [t] }
  else if env.stdLoadOk t then
    { st with successful_loads := st.successful_loads ++ [t] }
  else { st with failed_loads := st.failed_loads ++ [t] }

/-- The `main()` loading loop over the dependency order. -/
def mainRun (env : LoadEnv) : LoadState :=
  get_dependency_order.foldl (processTable env) (LoadState.mk [] [] none false)

/-- A character list with no `LIKE` metacharacter. -/
def wildcardFree (p : List Char) : Prop :=
  ∀ c ∈ p, c ≠ '%' ∧ c ≠ '_' ∧ c ≠ '\\'

/-! ## Claim-level definitions and concrete catalogs -/

/-- Case-insensitive substring containment of a keyword in a nullable
title, the reading used by the specification sentence on `title_only`. -/
def titleContainsCI (title : Option String) (kw : String) : Prop :=
  match title with
  | none => False
  | some t => hasSub (strLower kw).data (strLower t).data = true

instance (title : Option String) (kw : String) :
    Decidable (titleContainsCI title kw) :=
  match title with
  | none => isFalse (fun h => h)
  | some t =>
    inferInstanceAs (Decidable (hasSub (strLower kw).data (strLower t).data = true))

/-- The ranking relation the specification asserts between consecutive
result rows: either the first row has an artist and the second does not,
or both agree on artist nullness and the creation start year of the
first is greater than or equal to that of the second (a `NULL` year
counting as smaller than every year, matching `NULLS LAST` in the
descending SQL order). -/
def rankedBefore (a b : ResultRow) : Prop :=
  (a.artist_name ≠ none ∧ b.artist_name = none) ∨
    ((a.artist_name = none ↔ b.artist_name = none) ∧
      yearDescLE a.creation_start_year b.creation_start_year)

/-- The clause list the builder produces for a fixed scope. -/
def clausesFor (k : ClauseKind) (kws : List String) : List (ClauseKind × String) :=
  kws.map (fun kw => (k, kw))

/-- The set of object ids matched by the search predicate (the rows of
`artwork_base` before ordering and truncation) for a scope and keyword
list. -/
def matchedObjects (cat : Catalog) (k : ClauseKind) (kws : List String) : Set Nat :=
  { oid | ∃ b ∈ baseRows cat (clausesFor k kws), b.objectid = oid }

/-- A catalog with a single accessioned, imaged object titled `Axb`
that has two recorded artists. -/
def exCatMulti : Catalog where
  objects := [ObjectRow.mk 1 (some 1) (some "Axb") none (some 1650) none
    none none none none none none none]
  objects_terms := [TermRow.mk 1 (some "dutch")]
  objects_constituents :=
    [ObjConstRow.mk 1 10 (some "artist"), ObjConstRow.mk 1 11 (some "artist")]
  constituents := [ConstituentRow.mk 10 (some "A") none none none none,
    ConstituentRow.mk 11 (some "B") none none none none]
  published_images := [ImageRow.mk 1 (some "http") (some "primary") none none]
  locations := []

/-- A catalog with a seed object and one further object by the same
artist, the latter with a primary image. -/
def exCatRel : Catalog where
  objects := [ObjectRow.mk 1 (some 1) (some "Seed") none none none
    none none none none none none none,
    ObjectRow.mk 2 (some 1) (some "Other") none none none
    none none none none none none none]
  objects_terms := []
  objects_constituents :=
    [ObjConstRow.mk 1 10 (some "artist"), ObjConstRow.mk 2 10 (some "artist")]
  constituents := [ConstituentRow.mk 10 (some "A") none none none none]
  published_images := [ImageRow.mk 2 (some "u2") (some "primary") none none]
  locations := []

/-- The single related-artwork row of `exCatRel` for seed object 1. -/
def exRelRow : RelRow :=
  RelRow.mk 2 (some "Other") none (some "u2") "Same Artist"

/-- A loader environment in which every external step succeeds but the
committed objectid fetch returns the empty set. -/
def exEnvEmptyFetch : LoadEnv where
  stdLoadOk := fun _ => true
  imagesCsv := Except.ok [PubImgRow.mk 5 none]
  fetchIds := Except.ok []
  specialLoadOk := true

/-! ## General lemmas -/

theorem mem_dedupGo {α : Type} [DecidableEq α] {a : α} :
    ∀ {l seen : List α}, a ∈ dedupGo seen l ↔ a ∈ l ∧ a ∉ seen
  | [], seen => by simp [dedupGo]
  | b :: l, seen => by
    by_cases hb : b ∈ seen
    · rw [dedupGo, if_pos hb, mem_dedupGo]
      constructor
      · rintro ⟨h1, h2⟩
        exact ⟨List.mem_cons_of_mem _ h1, h2⟩
      · rintro ⟨h1, h2⟩
        rcases List.mem_cons.1 h1 with rfl | h1
        · exact absurd hb h2
        · exact ⟨h1, h2⟩
    · rw [dedupGo, if_neg hb]
      constructor
      · intro h
        rcases List.mem_cons.1 h with rfl | h
        · exact ⟨List.mem_cons_self _ _, hb⟩
        · have := mem_dedupGo.1 h
          refine ⟨List.mem_cons_of_mem _ this.1, fun hs => this.2 (List.mem_cons_of_mem _ hs)⟩
      · rintro ⟨h1, h2⟩
        rcases List.mem_cons.1 h1 with rfl | h1
        · exact List.mem_cons_self _ _
        · by_cases hab : a = b
          · exact hab ▸ List.mem_cons_self _ _
          · exact List.mem_cons_of_mem _ (mem_dedupGo.2 ⟨h1, by
              intro hs
              rcases List.mem_cons.1 hs with h | h
              · exact hab h
              · exact h2 h⟩)

theorem mem_dedupFirst {α : Type} [DecidableEq α] {a : α} {l : List α} :
    a ∈ dedupFirst l ↔ a ∈ l := by
  rw [dedupFirst, mem_dedupGo]
  simp

theorem nodup_dedupGo {α : Type} [DecidableEq α] :
    ∀ (l seen : List α), (dedupGo seen l).Nodup
  | [], _ => by simp [dedupGo]
  | b :: l, seen => by
    by_cases hb : b ∈ seen
    · rw [dedupGo, if_pos hb]
      exact nodup_dedupGo l seen
    · rw [dedupGo, if_neg hb]
      refine List.nodup_cons.2 ⟨?_, nodup_dedupGo l (b :: seen)⟩
      intro hmem
      exact (mem_dedupGo.1 hmem).2 (List.mem_cons_self _ _)

theorem nodup_dedupFirst {α : Type} [DecidableEq α] (l : List α) :
    (dedupFirst l).Nodup :=
  nodup_dedupGo l []

theorem mem_leftJoin_some {β : Type} {b : β} {ms : List β}
    (h : some b ∈ leftJoin ms) : b ∈ ms := by
  cases ms with
  | nil => simp [leftJoin] at h
  | cons m ms =>
    simp only [leftJoin, List.mem_map] at h
    obtain ⟨x, hx, hxb⟩ := h
    cases hxb
    exact hx

/-! ## Lemmas about `LIKE` matching -/

theorem hasPre_cons {c d : Char} {p s : List Char} :
    hasPre (c :: p) (d :: s) = (c == d && hasPre p s) := rfl

theorem hasSub_cons {d : Char} {p s : List Char} :
    hasSub p (d :: s) = (hasPre p (d :: s) || hasSub p s) := rfl

theorem likeMatch_percent (q s : List Char) :
    likeMatch ('%' :: q) s = likeAny (likeMatch q) s := by
  rw [likeMatch.eq_def]
  simp

theorem likeMatch_plain_nil {c : Char} {q : List Char}
    (h1 : c ≠ '%') (h2 : c ≠ '\\') (h3 : c ≠ '_') :
    likeMatch (c :: q) [] = false := by
  rw [likeMatch.eq_def]
  simp [h1, h2, h3]

theorem likeMatch_plain_cons {c d : Char} {q s : List Char}
    (h1 : c ≠ '%') (h2 : c ≠ '\\') (h3 : c ≠ '_') :
    likeMatch (c :: q) (d :: s) = (c == d && likeMatch q s) := by
  rw [likeMatch.eq_def]
  simp [h1, h2, h3]

theorem likeAny_eq_true {f : List Char → Bool} :
    ∀ {s : List Char}, likeAny f s = true ↔ ∃ t, t <:+ s ∧ f t = true
  | [] => by
    simp only [likeAny, List.suffix_nil]
    constructor
    · intro h
      exact ⟨[], rfl, h⟩
    · rintro ⟨t, rfl, h⟩
      exact h
  | c :: s => by
    simp only [likeAny, Bool.or_eq_true]
    rw [likeAny_eq_true (s := s)]
    constructor
    · rintro (h | ⟨t, ht, hf⟩)
      · exact ⟨c :: s, List.suffix_rfl, h⟩
      · exact ⟨t, List.suffix_cons_iff.2 (Or.inr ht), hf⟩
    · rintro ⟨t, ht, hf⟩
      rcases List.suffix_cons_iff.1 ht with rfl | ht
      · exact Or.inl hf
      · exact Or.inr ⟨t, ht, hf⟩

theorem wildfree_like_hasPre :
    ∀ {p t : List Char}, wildcardFree p →
      likeMatch (p ++ ['%']) t = true → hasPre p t = true
  | [], t, _, _ => rfl
  | c :: p, t, hw, h => by
    obtain ⟨hc1, hc2, hc3⟩ := hw c (List.mem_cons_self c p)
    rw [List.cons_append] at h
    cases t with
    | nil =>
      rw [likeMatch_plain_nil hc1 hc3 hc2] at h
      exact absurd h (by simp)
    | cons d t =>
      rw [likeMatch_plain_cons hc1 hc3 hc2, Bool.and_eq_true] at h
      rw [hasPre_cons, Bool.and_eq_true]
      exact ⟨h.1,
        wildfree_like_hasPre (fun x hx => hw x (List.mem_cons_of_mem c hx)) h.2⟩

theorem hasSub_of_suffix_hasPre :
    ∀ {s t p : List Char}, t <:+ s → hasPre p t = true → hasSub p s = true
  | [], t, p, hsuf, hpre => by
    rcases List.suffix_nil.1 hsuf with rfl
    cases p with
    | nil => rfl
    | cons c p => exact absurd hpre (by simp [hasPre])
  | d :: s, t, p, hsuf, hpre => by
    rw [hasSub_cons, Bool.or_eq_true]
    rcases List.suffix_cons_iff.1 hsuf with rfl | hsuf
    · exact Or.inl hpre
    · exact Or.inr (hasSub_of_suffix_hasPre hsuf hpre)

/-- A LIKE percent-kw-percent match by a pattern free of metacharacters is a
substring occurrence. -/
theorem fieldLike_wildfree_hasSub {t kw : String}
    (hw : wildcardFree (strLower kw).data)
    (h : fieldLike (some t) kw = true) :
    hasSub (strLower kw).data (strLower t).data = true := by
  have h2 : likeMatch ('%' :: ((strLower kw).data ++ ['%'])) (strLower t).data = true := h
  rw [likeMatch_percent] at h2
  obtain ⟨u, hu, hmatch⟩ := likeAny_eq_true.1 h2
  exact hasSub_of_suffix_hasPre hu (wildfree_like_hasPre hw hmatch)

/-! ## Lemmas about the clause builder and the query wrapper -/

theorem buildClausesGo_cons (searchType kw : String) (rest : List String)
    (prev : Option ClauseKind) (acc : List (ClauseKind × String)) :
    buildClausesGo searchType (kw :: rest) prev acc =
      match scopeClauseKind searchType with
      | some k => buildClausesGo searchType rest (some k) ((k, kw) :: acc)
      | none =>
        match prev with
        | none => Except.error AppFailure.nameError
        | some _ => Except.error AppFailure.backendError := rfl

theorem buildClausesGo_valid {searchType : String} {k : ClauseKind}
    (hk : scopeClauseKind searchType = some k) :
    ∀ (kws : List String) (prev : Option ClauseKind)
      (acc : List (ClauseKind × String)),
      buildClausesGo searchType kws prev acc =
        Except.ok (acc.reverse ++ kws.map (fun kw => (k, kw)))
  | [], _, acc => by simp [buildClausesGo]
  | kw :: rest, prev, acc => by
    rw [buildClausesGo_cons]
    simp only [hk]
    rw [buildClausesGo_valid hk rest (some k) ((k, kw) :: acc)]
    simp

theorem buildClauses_valid {kws : List String} {searchType : String}
    {k : ClauseKind} (hk : scopeClauseKind searchType = some k) :
    buildClauses kws searchType = Except.ok (kws.map (fun kw => (k, kw))) := by
  rw [buildClauses, buildClausesGo_valid hk]
  simp

theorem buildClauses_nil (searchType : String) :
    buildClauses [] searchType = Except.ok [] := rfl

theorem buildClauses_badScope {searchType : String}
    (hk : scopeClauseKind searchType = none) (kw : String) (rest : List String) :
    buildClauses (kw :: rest) searchType = Except.error AppFailure.nameError := by
  rw [buildClauses, buildClausesGo_cons]
  simp only [hk]

theorem query_ok_inversion {cat : Catalog} {kws : List String}
    {st : String} {limit : Nat} {out : List ResultRow}
    (h : query_artworks_enhanced cat kws st limit = Except.ok out) :
    ∃ cls, buildClauses kws st = Except.ok cls ∧ cls ≠ [] ∧
      out = runSearch cat cls limit := by
  unfold query_artworks_enhanced at h
  split at h
  · exact absurd h (by simp)
  · rename_i cls heq
    split at h
    · exact absurd h (by simp)
    · rename_i hne
      cases h
      exact ⟨cls, heq, by simpa using hne, rfl⟩

theorem query_ok_scope {cat : Catalog} {kws : List String}
    {st : String} {limit : Nat} {out : List ResultRow}
    (h : query_artworks_enhanced cat kws st limit = Except.ok out) :
    ∃ k, scopeClauseKind st = some k ∧ kws ≠ [] ∧
      out = runSearch cat (kws.map (fun kw => (k, kw))) limit := by
  obtain ⟨cls, hcls, hne, hout⟩ := query_ok_inversion h
  cases hk : scopeClauseKind st with
  | none =>
    exfalso
    cases kws with
    | nil =>
      rw [buildClauses_nil] at hcls
      cases hcls
      exact hne rfl
    | cons kw rest =>
      rw [buildClauses_badScope hk] at hcls
      exact absurd hcls (by simp)
  | some k =>
    rw [buildClauses_valid hk] at hcls
    cases hcls
    refine ⟨k, rfl, ?_, hout⟩
    intro hnil
    subst hnil
    exact hne rfl

/-! ## Membership lemmas for the retrieval pipeline -/

theorem o_mem_of_mem_joinedRows {cat : Catalog} {j : JoinedRow}
    (h : j ∈ joinedRows cat) : j.o ∈ cat.objects := by
  unfold joinedRows at h
  simp only [List.mem_flatMap, List.mem_map] at h
  obtain ⟨o, ho, _, _, _, _, _, _, _, _, rfl⟩ := h
  exact ho

theorem rowEligible_parts {cls : List (ClauseKind × String)} {j : JoinedRow}
    (h : rowEligible cls j = true) :
    j.o.accessioned = some 1 ∧
      (∃ cl ∈ cls, matchClause j cl = true) ∧
      ∃ p, j.pi = some p ∧ p.iiifurl.isSome = true := by
  unfold rowEligible at h
  simp only [Bool.and_eq_true, beq_iff_eq, List.any_eq_true] at h
  obtain ⟨⟨h1, h2⟩, h3⟩ := h
  refine ⟨h1, h2, ?_⟩
  cases hp : j.pi with
  | none => rw [hp] at h3; exact absurd h3 (by simp)
  | some p => rw [hp] at h3; exact ⟨p, rfl, h3⟩

theorem mem_runSearch {cat : Catalog} {cls : List (ClauseKind × String)}
    {limit : Nat} {r : ResultRow} (h : r ∈ runSearch cat cls limit) :
    ∃ j ∈ joinedRows cat, rowEligible cls j = true ∧
      r.toBaseRow = projectBase j ∧
      r.all_terms = aggTerms cat (projectBase j).objectid := by
  unfold runSearch at h
  have h1 := List.mem_of_mem_take h
  rw [List.mem_insertionSort] at h1
  unfold withTerms at h1
  rw [List.mem_map] at h1
  obtain ⟨b, hb, rfl⟩ := h1
  unfold baseRows at hb
  rw [mem_dedupFirst, List.mem_map] at hb
  obtain ⟨j, hj, rfl⟩ := hb
  rw [List.mem_filter] at hj
  exact ⟨j, hj.1, hj.2, rfl, rfl⟩

/-! ## Lemmas about ranking -/

theorem searchLE_imp_rankedBefore {a b : ResultRow} (h : searchLE a b) :
    rankedBefore a b := by
  rcases h with h | ⟨heq, hy⟩
  · unfold artistRank at h
    by_cases ha : a.artist_name.isSome <;> by_cases hb : b.artist_name.isSome <;>
      simp only [ha, hb, if_true, if_false] at h
    · exact absurd h (by simp)
    · refine Or.inl ⟨?_, ?_⟩
      · simpa [Option.isSome_iff_ne_none] using ha
      · simpa [Option.not_isSome_iff_eq_none] using hb
    · exact absurd h (by simp)
    · exact absurd h (by simp)
  · unfold artistRank at heq
    refine Or.inr ⟨?_, hy⟩
    by_cases ha : a.artist_name.isSome <;> by_cases hb : b.artist_name.isSome <;>
      simp only [ha, hb, if_true, if_false] at heq
    · simp_all [Option.isSome_iff_ne_none]
    · exact absurd heq (by simp)
    · exact absurd heq (by simp)
    · simp_all [Option.not_isSome_iff_eq_none]

/-! ## Lemmas about `get_related_artworks` -/

theorem mem_of_head?_eq {α : Type} {l : List α} {a : α}
    (h : l.head? = some a) : a ∈ l := by
  cases l with
  | nil => cases h
  | cons b l =>
    have hb : b = a := by simpa using h
    exact hb ▸ List.mem_cons_self _ _

theorem currentArtwork_fst {cat : Catalog} {oid : Nat} {ca : Nat × Nat}
    (h : currentArtwork cat oid = some ca) : ca.1 = oid := by
  unfold currentArtwork at h
  rw [Option.map_eq_some'] at h
  obtain ⟨x, hx, rfl⟩ := h
  have hmem := mem_of_head?_eq hx
  rw [List.mem_filter] at hmem
  have hp := hmem.2
  simp only [Bool.and_eq_true, beq_iff_eq] at hp
  exact hp.1

theorem mem_get_related {cat : Catalog} {oid : Nat} {r : RelRow}
    (h : r ∈ get_related_artworks cat oid) :
    ∃ ca, currentArtwork cat oid = some ca ∧ r ∈ relatedCandidates cat ca := by
  unfold get_related_artworks at h
  cases hca : currentArtwork cat oid with
  | none => rw [hca] at h; cases h
  | some ca =>
    rw [hca] at h
    have h1 := List.mem_of_mem_take h
    rw [List.mem_insertionSort, mem_dedupFirst] at h1
    exact ⟨ca, rfl, h1⟩

theorem mem_relatedCandidates {cat : Catalog} {ca : Nat × Nat} {r : RelRow}
    (h : r ∈ relatedCandidates cat ca) :
    ∃ oc ∈ cat.objects_constituents, ∃ o ∈ cat.objects, ∃ p : ImageRow,
      oc.constituentid = ca.2 ∧ o.objectid = oc.objectid ∧
      o.objectid ≠ ca.1 ∧ oc.roletype = some "artist" ∧
      p.iiifurl.isSome = true ∧
      r = RelRow.mk o.objectid o.title o.displaydate p.iiifurl "Same Artist" := by
  unfold relatedCandidates at h
  rw [List.mem_map] at h
  obtain ⟨x, hx, rfl⟩ := h
  rw [List.mem_filter] at hx
  obtain ⟨hx, hcond⟩ := hx
  simp only [List.mem_flatMap, List.mem_map, List.mem_filter] at hx
  obtain ⟨oc, ⟨hoc, hcid⟩, o, ⟨ho, hooc⟩, p?, hp?, rfl⟩ := hx
  simp only [Bool.and_eq_true, bne_iff_ne, ne_eq, beq_iff_eq] at hcond
  obtain ⟨⟨hne, hrole⟩, himg⟩ := hcond
  cases hpi : p? with
  | none => rw [hpi] at himg; exact absurd himg (by simp)
  | some p =>
    rw [hpi] at himg
    refine ⟨oc, hoc, o, ho, p, ?_, ?_, hne, hrole, himg, rfl⟩
    · exact (beq_iff_eq.1 hcid).symm
    · exact beq_iff_eq.1 hooc

/-! ## Lemmas about the loader main loop -/

theorem processTable_keeps_success {env : LoadEnv} {st : LoadState}
    {t x : String} (hx : x ∈ st.successful_loads) :
    x ∈ (processTable env st t).successful_loads := by
  unfold processTable
  split
  · split
    · exact hx
    · split
      · exact List.mem_append_left _ hx
      · exact hx
  · split
    · split
      · exact hx
      · split
        · exact List.mem_append_left _ hx
        · exact hx
    · split
      · exact List.mem_append_left _ hx
      · exact hx

theorem processTable_filterRan {env : LoadEnv} {st : LoadState} {t : String}
    (hst : st.filterRan = true → "objects" ∈ st.successful_loads) :
    (processTable env st t).filterRan = true →
      "objects" ∈ (processTable env st t).successful_loads := by
  unfold processTable
  split
  · rename_i hcond
    simp only [Bool.and_eq_true] at hcond
    have hobj : "objects" ∈ st.successful_loads :=
      List.mem_of_elem_eq_true hcond.2
    split
    · intro hran
      exact hst hran
    · split
      · intro _
        exact List.mem_append_left _ hobj
      · intro _
        exact hobj
  · split
    · split
      · intro hran
        exact hst hran
      · split
        · intro hran
          exact List.mem_append_left _ (hst hran)
        · intro hran
          exact hst hran
    · split
      · intro hran
        exact List.mem_append_left _ (hst hran)
      · intro hran
        exact hst hran

theorem foldl_filterRan (env : LoadEnv) :
    ∀ (l : List String) (st : LoadState),
      (st.filterRan = true → "objects" ∈ st.successful_loads) →
      ((l.foldl (processTable env) st).filterRan = true →
        "objects" ∈ (l.foldl (processTable env) st).successful_loads)
  | [], _, h => h
  | t :: l, st, h =>
    foldl_filterRan env l (processTable env st t) (processTable_filterRan h)

/-! ## Claims C1 to C6 -/

/-- C1 (counterexample): the claim that every result of
`query_artworks_enhanced` has pairwise-distinct `objectid` values fails
on the catalog `exCatMulti`, whose single object has two artist rows:
the search on keyword `axb` over titles returns that object twice, once
per artist. -/
theorem c1_counterexample :
    ¬ (∀ out : List ResultRow,
        query_artworks_enhanced exCatMulti ["axb"] "title_only" 10 =
          Except.ok out →
        (out.map (fun r => r.objectid)).Nodup) := by
  intro h
  have h2 := h (runSearch exCatMulti [(ClauseKind.titleOnly, "axb")] 10) rfl
  revert h2
  decide

/-- C1 (amended): every successful result of `query_artworks_enhanced`
is duplicate-free as a list of full display rows; the de-duplication key
is the whole projected tuple, not `objectid`, so an object whose
multiplicity comes only from several qualifying terms appears once, but
an object with several artist rows or several primary images appears
once per distinct combination of the displayed columns. -/
theorem c1_amended {cat : Catalog} {kws : List String} {st : String}
    {limit : Nat} {out : List ResultRow}
    (h : query_artworks_enhanced cat kws st limit = Except.ok out) :
    out.Nodup := by
  obtain ⟨cls, _, _, rfl⟩ := query_ok_inversion h
  unfold runSearch
  refine List.Nodup.sublist (List.take_sublist _ _) ?_
  refine ((List.perm_insertionSort searchLE _).nodup_iff).2 ?_
  unfold withTerms
  refine List.Nodup.map ?_ ?_
  · intro b b' hb
    exact congrArg ResultRow.toBaseRow hb
  · exact nodup_dedupFirst _

/-- Witness for C1: the amended theorem applied to a concrete query. -/
theorem c1_witness :
    query_artworks_enhanced exCatMulti ["axb"] "title_only" 10 =
        Except.ok (runSearch exCatMulti [(ClauseKind.titleOnly, "axb")] 10) ∧
      (runSearch exCatMulti [(ClauseKind.titleOnly, "axb")] 10).Nodup :=
  ⟨rfl, @c1_amended exCatMulti ["axb"] "title_only" 10
    (runSearch exCatMulti [(ClauseKind.titleOnly, "axb")] 10) rfl⟩

/-- C2 (counterexample): with keyword `a_b` and scope `title_only`, the
object titled `Axb` is returned, because the underscore in the keyword
acts as a `LIKE` single-character wildcard; yet `a_b` is not a substring
of the title, so the claim that every returned title contains some
keyword as a substring fails. -/
theorem c2_counterexample :
    ¬ (∀ out : List ResultRow,
        query_artworks_enhanced exCatMulti ["a_b"] "title_only" 10 =
          Except.ok out →
        ∀ r ∈ out, ∃ kw ∈ (["a_b"] : List String),
          titleContainsCI r.title kw) := by
  intro h
  have h2 := h (runSearch exCatMulti [(ClauseKind.titleOnly, "a_b")] 10) rfl
  revert h2
  decide

/-- C2 (amended): under scope `title_only`, every returned row has a
title that matches at least one keyword under case-insensitive SQL
LIKE percent-kw-percent semantics; whenever that keyword contains no `LIKE`
metacharacter (`%`, `_`, backslash), the match is case-insensitive
substring containment. -/
theorem c2_amended {cat : Catalog} {kws : List String} {limit : Nat}
    {out : List ResultRow} (_hne : kws ≠ [])
    (h : query_artworks_enhanced cat kws "title_only" limit = Except.ok out) :
    ∀ r ∈ out, ∃ kw ∈ kws, fieldLike r.title kw = true ∧
      (wildcardFree (strLower kw).data → titleContainsCI r.title kw) := by
  obtain ⟨k, hk, _, rfl⟩ := query_ok_scope h
  rw [show scopeClauseKind "title_only" = some ClauseKind.titleOnly from rfl] at hk
  injection hk with hk
  subst hk
  intro r hr
  obtain ⟨j, hj, helig, hbase, _⟩ := mem_runSearch hr
  obtain ⟨_, ⟨cl, hcl, hmatch⟩, _⟩ := rowEligible_parts helig
  rw [List.mem_map] at hcl
  obtain ⟨kw, hkw, rfl⟩ := hcl
  have htitle : r.title = j.o.title := congrArg BaseRow.title hbase
  refine ⟨kw, hkw, ?_, ?_⟩
  · rw [htitle]
    exact hmatch
  · intro hwf
    have hml : fieldLike j.o.title kw = true := hmatch
    rw [htitle]
    cases ht : j.o.title with
    | none =>
      rw [ht] at hml
      simp [fieldLike] at hml
    | some t =>
      rw [ht] at hml
      unfold titleContainsCI
      exact fieldLike_wildfree_hasSub hwf hml

/-- Witness for C2: the amended theorem at a concrete query whose
keyword is metacharacter-free. -/
theorem c2_witness :
    (["axb"] : List String) ≠ [] ∧
      query_artworks_enhanced exCatMulti ["axb"] "title_only" 10 =
        Except.ok (runSearch exCatMulti [(ClauseKind.titleOnly, "axb")] 10) ∧
      ∀ r ∈ runSearch exCatMulti [(ClauseKind.titleOnly, "axb")] 10,
        ∃ kw ∈ (["axb"] : List String), fieldLike r.title kw = true ∧
          (wildcardFree (strLower kw).data → titleContainsCI r.title kw) :=
  ⟨by simp, rfl, @c2_amended exCatMulti ["axb"] 10
    (runSearch exCatMulti [(ClauseKind.titleOnly, "axb")] 10) (by simp) rfl⟩

/-- C3: in every successful result, for any row A before a row B, either
A has an artist and B does not, or both agree on artist nullness and the
creation start year of A is at least that of B (a `NULL` year ranking
below every year, as `NULLS LAST` in the descending SQL sort). -/
theorem c3_theorem {cat : Catalog} {kws : List String} {st : String}
    {limit : Nat} {out : List ResultRow}
    (h : query_artworks_enhanced cat kws st limit = Except.ok out) :
    out.Pairwise rankedBefore := by
  obtain ⟨cls, _, _, rfl⟩ := query_ok_inversion h
  unfold runSearch
  refine List.Pairwise.sublist (List.take_sublist _ _) ?_
  exact List.Pairwise.imp (fun hab => searchLE_imp_rankedBefore hab)
    (List.sorted_insertionSort searchLE _)

/-- Witness for C3 at a concrete query. -/
theorem c3_witness :
    query_artworks_enhanced exCatMulti ["axb"] "title_only" 10 =
        Except.ok (runSearch exCatMulti [(ClauseKind.titleOnly, "axb")] 10) ∧
      (runSearch exCatMulti [(ClauseKind.titleOnly, "axb")] 10).Pairwise
        rankedBefore :=
  ⟨rfl, @c3_theorem exCatMulti ["axb"] "title_only" 10
    (runSearch exCatMulti [(ClauseKind.titleOnly, "axb")] 10) rfl⟩

/-- C4: every row of a successful result comes from an object stored
with `accessioned = 1` and carries a non-null primary image URL. -/
theorem c4_theorem {cat : Catalog} {kws : List String} {st : String}
    {limit : Nat} {out : List ResultRow}
    (h : query_artworks_enhanced cat kws st limit = Except.ok out) :
    ∀ r ∈ out,
      (∃ o ∈ cat.objects, o.objectid = r.objectid ∧ o.accessioned = some 1) ∧
        r.iiifurl ≠ none := by
  obtain ⟨cls, _, _, rfl⟩ := query_ok_inversion h
  intro r hr
  obtain ⟨j, hj, helig, hbase, _⟩ := mem_runSearch hr
  obtain ⟨hacc, _, p, hp, hurl⟩ := rowEligible_parts helig
  constructor
  · exact ⟨j.o, o_mem_of_mem_joinedRows hj,
      (congrArg BaseRow.objectid hbase).symm, hacc⟩
  · have hiiif : r.iiifurl = j.pi.bind ImageRow.iiifurl :=
      congrArg BaseRow.iiifurl hbase
    rw [hiiif, hp]
    intro hnone
    rw [show (some p).bind ImageRow.iiifurl = p.iiifurl from rfl] at hnone
    rw [hnone] at hurl
    exact absurd hurl (by simp)

/-- Witness for C4 at a concrete query. -/
theorem c4_witness :
    query_artworks_enhanced exCatMulti ["axb"] "title_only" 10 =
        Except.ok (runSearch exCatMulti [(ClauseKind.titleOnly, "axb")] 10) ∧
      ∀ r ∈ runSearch exCatMulti [(ClauseKind.titleOnly, "axb")] 10,
        (∃ o ∈ exCatMulti.objects,
            o.objectid = r.objectid ∧ o.accessioned = some 1) ∧
          r.iiifurl ≠ none :=
  ⟨rfl, @c4_theorem exCatMulti ["axb"] "title_only" 10
    (runSearch exCatMulti [(ClauseKind.titleOnly, "axb")] 10) rfl⟩

/-- C5: extending the keyword list can only grow the set of matched
objects, for every catalog and scope: the keyword predicates are
OR-combined, so a row matching some keyword of the smaller list still
matches in the larger list. -/
theorem c5_theorem (cat : Catalog) (k : ClauseKind) {K K' : List String}
    (hsub : K ⊆ K') :
    matchedObjects cat k K ⊆ matchedObjects cat k K' := by
  intro oid hoid
  simp only [matchedObjects, Set.mem_setOf_eq] at hoid ⊢
  obtain ⟨b, hb, rfl⟩ := hoid
  refine ⟨b, ?_, rfl⟩
  unfold baseRows at hb ⊢
  rw [mem_dedupFirst, List.mem_map] at hb ⊢
  obtain ⟨j, hj, rfl⟩ := hb
  rw [List.mem_filter] at hj
  refine ⟨j, ?_, rfl⟩
  rw [List.mem_filter]
  refine ⟨hj.1, ?_⟩
  have h2 := hj.2
  unfold rowEligible at h2 ⊢
  simp only [Bool.and_eq_true, List.any_eq_true] at h2 ⊢
  obtain ⟨⟨h21, cl, hcl, hm⟩, h23⟩ := h2
  refine ⟨⟨h21, cl, ?_, hm⟩, h23⟩
  unfold clausesFor at hcl ⊢
  rw [List.mem_map] at hcl ⊢
  obtain ⟨kw, hkw, rfl⟩ := hcl
  exact ⟨kw, hsub hkw, rfl⟩

/-- Witness for C5 on a concrete catalog and keyword lists. -/
theorem c5_witness :
    matchedObjects exCatMulti ClauseKind.titleOnly ["axb"] ⊆
      matchedObjects exCatMulti ClauseKind.titleOnly ["axb", "dutch"] :=
  c5_theorem exCatMulti ClauseKind.titleOnly (by simp)

/-- C6 (counterexample): the code never raises `InvalidArgumentError`.
With an empty keyword list the generated SQL contains the empty group
`AND ()` and the failure surfaces from query execution; with an
unrecognized scope the loop reads the unassigned local `where_clause`
and a Python `NameError` escapes. -/
theorem c6_counterexample :
    query_artworks_enhanced exCatMulti [] "title_only" 10 =
        Except.error AppFailure.backendError ∧
      query_artworks_enhanced exCatMulti ["a"] "bogus" 10 =
        Except.error AppFailure.nameError ∧
      AppFailure.backendError ≠ AppFailure.invalidArgument ∧
      AppFailure.nameError ≠ AppFailure.invalidArgument :=
  ⟨rfl, rfl, by decide, by decide⟩

/-- C6 (amended): `query_artworks_enhanced` performs no argument
validation.  An unrecognized scope with a non-empty keyword list fails
with the unassigned-local `NameError`; an empty keyword list always
yields malformed SQL whose failure is a backend query-execution error;
neither is an `InvalidArgumentError`. -/
theorem c6_amended (cat : Catalog) (kws : List String) (st : String)
    (limit : Nat) :
    (scopeClauseKind st = none → kws ≠ [] →
        query_artworks_enhanced cat kws st limit =
          Except.error AppFailure.nameError) ∧
      (kws = [] →
        query_artworks_enhanced cat kws st limit =
          Except.error AppFailure.backendError) := by
  constructor
  · intro hbad hne
    cases kws with
    | nil => exact absurd rfl hne
    | cons kw rest =>
      unfold query_artworks_enhanced
      rw [buildClauses_badScope hbad]
  · rintro rfl
    unfold query_artworks_enhanced
    rw [buildClauses_nil]
    rfl

/-- Witness for C6: the amended theorem applied to both failure shapes. -/
theorem c6_witness :
    query_artworks_enhanced exCatMulti ["a"] "bogus" 10 =
        Except.error AppFailure.nameError ∧
      query_artworks_enhanced exCatMulti [] "title_only" 10 =
        Except.error AppFailure.backendError :=
  ⟨(c6_amended exCatMulti ["a"] "bogus" 10).1 rfl (by simp),
    (c6_amended exCatMulti [] "title_only" 10).2 rfl⟩

/-! ## Claims C7 to C10 -/

/-- C7: `get_related_artworks` returns at most 5 rows, ordered by
display date ascending (`NULL` dates first, as in the ascending SQL
sort); every returned row is a catalog object distinct from the seed,
carries a non-null image URL, and is linked with role `artist` to the
artist id of the first artist row found for the seed object. -/
theorem c7_theorem (cat : Catalog) (oid : Nat) :
    (get_related_artworks cat oid).length ≤ 5 ∧
      (get_related_artworks cat oid).Pairwise dispLE ∧
      ∀ r ∈ get_related_artworks cat oid,
        r.objectid ≠ oid ∧ r.iiifurl ≠ none ∧
          (∃ o ∈ cat.objects, o.objectid = r.objectid) ∧
          ∃ seed aid, currentArtwork cat oid = some (seed, aid) ∧ seed = oid ∧
            ∃ oc ∈ cat.objects_constituents, oc.constituentid = aid ∧
              oc.objectid = r.objectid ∧ oc.roletype = some "artist" := by
  refine ⟨?_, ?_, ?_⟩
  · unfold get_related_artworks
    cases currentArtwork cat oid with
    | none => simp
    | some ca =>
      rw [List.length_take]
      exact min_le_left _ _
  · unfold get_related_artworks
    cases currentArtwork cat oid with
    | none => exact List.Pairwise.nil
    | some ca =>
      exact List.Pairwise.sublist (List.take_sublist _ _)
        (List.sorted_insertionSort dispLE _)
  · intro r hr
    obtain ⟨ca, hca, hmem⟩ := mem_get_related hr
    obtain ⟨oc, hoc, o, ho, p, hcid, hooc, hne, hrole, hurl, rfl⟩ :=
      mem_relatedCandidates hmem
    have hfst := currentArtwork_fst hca
    refine ⟨?_, ?_, ⟨o, ho, rfl⟩, ca.1, ca.2, hca, hfst, oc, hoc, hcid,
      hooc.symm, hrole⟩
    · rw [← hfst]
      exact hne
    · intro hnone
      rw [show (RelRow.mk o.objectid o.title o.displaydate p.iiifurl
          "Same Artist").iiifurl = p.iiifurl from rfl] at hnone
      rw [hnone] at hurl
      exact absurd hurl (by simp)

/-- Witness for C7 on a concrete catalog whose seed has one related
artwork. -/
theorem c7_witness :
    (exRelRow ∈ get_related_artworks exCatRel 1) ∧
      exRelRow.objectid ≠ 1 ∧ exRelRow.iiifurl ≠ none ∧
      (∃ o ∈ exCatRel.objects, o.objectid = exRelRow.objectid) ∧
      ∃ seed aid, currentArtwork exCatRel 1 = some (seed, aid) ∧ seed = 1 ∧
        ∃ oc ∈ exCatRel.objects_constituents, oc.constituentid = aid ∧
          oc.objectid = exRelRow.objectid ∧ oc.roletype = some "artist" :=
  ⟨by decide, (c7_theorem exCatRel 1).2.2 exRelRow (by decide)⟩

/-- C8 (counterexample): when the committed objectid set is empty,
`filter_published_images` returns its input unchanged instead of
removing every row, so the claim that exactly the rows with a committed
objectid are kept fails. -/
theorem c8_counterexample :
    filter_published_images [PubImgRow.mk 5 none] (Except.ok []) =
        [PubImgRow.mk 5 none] ∧
      ¬ (∀ r ∈ filter_published_images [PubImgRow.mk 5 none] (Except.ok []),
          r.objectid ∈ ([] : List Nat)) :=
  ⟨rfl, by decide⟩

/-- C8 (amended): when the committed objectid set is fetched
successfully and is non-empty, the filtering step keeps exactly the
input rows whose `objectid` belongs to the set. -/
theorem c8_amended {df : List PubImgRow} {ids : List Nat} (hne : ids ≠ []) :
    ∀ r : PubImgRow,
      r ∈ filter_published_images df (Except.ok ids) ↔
        r ∈ df ∧ r.objectid ∈ ids := by
  intro r
  rw [show filter_published_images df (Except.ok ids)
      = (if ids.isEmpty = true then df
         else df.filter (fun r => ids.contains r.objectid)) from rfl]
  rw [if_neg (by simpa [List.isEmpty_iff] using hne)]
  rw [List.mem_filter]
  constructor
  · rintro ⟨h1, h2⟩
    exact ⟨h1, List.elem_iff.1 h2⟩
  · rintro ⟨h1, h2⟩
    exact ⟨h1, List.elem_iff.2 h2⟩

/-- Witness for C8 on a concrete frame and committed set. -/
theorem c8_witness :
    (([5] : List Nat) ≠ []) ∧
      (PubImgRow.mk 5 none ∈
          filter_published_images [PubImgRow.mk 5 none, PubImgRow.mk 6 none]
            (Except.ok [5]) ↔
        PubImgRow.mk 5 none ∈ [PubImgRow.mk 5 none, PubImgRow.mk 6 none] ∧
          (5 : Nat) ∈ ([5] : List Nat)) :=
  ⟨by simp, c8_amended (by simp) (PubImgRow.mk 5 none)⟩

/-- C9 (counterexample): on the column name `a.b` the code removes the
dot, yielding `ab`, while the specification prescribes replacing it with
an underscore, yielding `a_b`. -/
theorem c9_counterexample :
    sanitize_column_name "a.b" = "ab" ∧
      specSanitizeColumn "a.b" = "a_b" ∧
      sanitize_column_name "a.b" ≠ specSanitizeColumn "a.b" :=
  ⟨by decide, by decide, by decide⟩

/-- C9 (amended): the sanitization lower-cases the name, turns spaces
and hyphens into underscores, keeps alphanumerics and underscores,
removes every other character, and prepends `col_` exactly when the
result is non-empty and starts with a digit. -/
theorem c9_amended (col : String) :
    sanitize_column_name col = amendedSanitizeColumn col := by
  have hlist : ∀ l : List Char,
      List.filter (fun c => c.isAlphanum || c == '_')
        (List.filter (fun c => !(c == '(') && !(c == ')'))
          (List.map (fun c => if c == ' ' || c == '-' then '_' else c)
            (List.map Char.toLower l)))
      = List.filterMap amendedSanitizeChar l := by
    intro l
    induction l with
    | nil => rfl
    | cons c l ih =>
      simp only [List.map_cons]
      by_cases h1 : (c.toLower == ' ' || c.toLower == '-') = true
      · rw [if_pos h1, List.filter_cons_of_pos (by decide),
          List.filter_cons_of_pos (by decide),
          List.filterMap_cons_some
            (show amendedSanitizeChar c = some '_' from by
              unfold amendedSanitizeChar
              rw [if_pos h1]),
          ih]
      · rw [if_neg h1]
        by_cases h2 : (c.toLower.isAlphanum || c.toLower == '_') = true
        · have hp : (!(c.toLower == '(') && !(c.toLower == ')')) = true := by
            by_cases e1 : c.toLower = '('
            · rw [e1] at h2
              exact absurd h2 (by decide)
            · by_cases e2 : c.toLower = ')'
              · rw [e2] at h2
                exact absurd h2 (by decide)
              · simp [e1, e2]
          rw [@List.filter_cons_of_pos _ (fun x => !(x == '(') && !(x == ')'))
              c.toLower _ hp,
            @List.filter_cons_of_pos _ (fun x => x.isAlphanum || x == '_')
              c.toLower _ h2,
            List.filterMap_cons_some
              (show amendedSanitizeChar c = some c.toLower from by
                unfold amendedSanitizeChar
                rw [if_neg h1, if_pos h2]),
            ih]
        · rw [List.filterMap_cons_none
              (show amendedSanitizeChar c = none from by
                unfold amendedSanitizeChar
                rw [if_neg h1, if_neg h2])]
          by_cases e : (!(c.toLower == '(') && !(c.toLower == ')')) = true
          · rw [@List.filter_cons_of_pos _ (fun x => !(x == '(') && !(x == ')'))
                c.toLower _ e,
              @List.filter_cons_of_neg _ (fun x => x.isAlphanum || x == '_')
                c.toLower _ h2, ih]
          · rw [@List.filter_cons_of_neg _ (fun x => !(x == '(') && !(x == ')'))
                c.toLower _ e, ih]
  exact congrArg digitRule (hlist col.data)

/-- Witness for C9 at a concrete column name with a space, a hyphen, a
dot and a leading digit. -/
theorem c9_witness :
    sanitize_column_name "1A b-c.d" = amendedSanitizeColumn "1A b-c.d" ∧
      amendedSanitizeColumn "1A b-c.d" = "col_1a_b_cd" :=
  ⟨c9_amended "1A b-c.d", by decide⟩

/-- C10: in the loading loop, the referential-integrity filter runs only
when `objects` is recorded as successfully loaded in the same run; when
`objects` is not recorded, `published_images` goes through the standard
unfiltered load and the CSV rows are written unchanged; and even on the
filtered path, a failed fetch or an empty committed set leaves the rows
unchanged. -/
theorem c10_theorem (env : LoadEnv) :
    ((mainRun env).filterRan = true →
        "objects" ∈ (mainRun env).successful_loads) ∧
      (∀ (st : LoadState) (rows : List PubImgRow),
        "objects" ∉ st.successful_loads →
        env.imagesCsv = Except.ok rows →
        env.stdLoadOk "published_images" = true →
        (processTable env st "published_images").imagesWritten = some rows) ∧
      (∀ (st : LoadState) (rows : List PubImgRow),
        "objects" ∈ st.successful_loads →
        env.imagesCsv = Except.ok rows →
        env.specialLoadOk = true →
        (env.fetchIds = Except.error () ∨ env.fetchIds = Except.ok []) →
        (processTable env st "published_images").imagesWritten = some rows) := by
  refine ⟨?_, ?_, ?_⟩
  · exact foldl_filterRan env get_dependency_order
      (LoadState.mk [] [] none false) (fun h => absurd h (by simp))
  · intro st rows hno hcsv hstd
    have hc : (("published_images" == "published_images") &&
        st.successful_loads.contains "objects") = false := by
      cases he : st.successful_loads.contains "objects" with
      | false => simp
      | true => exact absurd (List.mem_of_elem_eq_true he) hno
    unfold processTable
    rw [if_neg (by rw [hc]; simp), if_pos (by simp)]
    split
    · rename_i herr
      rw [hcsv] at herr
      simp at herr
    · rename_i rows' hok
      rw [hcsv] at hok
      injection hok with hok
      subst hok
      rw [if_pos hstd]
  · intro st rows hyes hcsv hspec hfetch
    have hc : (("published_images" == "published_images") &&
        st.successful_loads.contains "objects") = true := by
      simp only [Bool.and_eq_true, beq_self_eq_true, true_and]
      exact List.elem_iff.2 hyes
    unfold processTable
    rw [if_pos hc]
    split
    · rename_i herr
      rw [hcsv] at herr
      simp at herr
    · rename_i rows' hok
      rw [hcsv] at hok
      injection hok with hok
      subst hok
      rw [if_pos hspec]
      rcases hfetch with hf | hf
      · rw [hf]
        rfl
      · rw [hf]
        rfl

/-- Witness for C10: a full run in which the fetch yields the empty set,
plus the two loop-body facts at concrete states. -/
theorem c10_witness :
    ((mainRun exEnvEmptyFetch).filterRan = true ∧
        "objects" ∈ (mainRun exEnvEmptyFetch).successful_loads) ∧
      (processTable exEnvEmptyFetch (LoadState.mk [] [] none false)
          "published_images").imagesWritten = some [PubImgRow.mk 5 none] ∧
      (processTable exEnvEmptyFetch (LoadState.mk ["objects"] [] none false)
          "published_images").imagesWritten = some [PubImgRow.mk 5 none] :=
  ⟨⟨by decide, (c10_theorem exEnvEmptyFetch).1 (by decide)⟩,
    (c10_theorem exEnvEmptyFetch).2.1 (LoadState.mk [] [] none false)
      [PubImgRow.mk 5 none] (by decide) rfl rfl,
    (c10_theorem exEnvEmptyFetch).2.2 (LoadState.mk ["objects"] [] none false)
      [PubImgRow.mk 5 none] (by decide) rfl rfl (Or.inr rfl)⟩

end NGA
